import Mathlib

/-!
Shallow embedding of `sqrtprice.py`: the function `calculate_sqrt_price`
computes a Uniswap-style `sqrtPriceX96` fixed-point value from two token
reserves and their decimal scales.  Reserves are Python arbitrary-precision
integers (`Int`); Python `//` is floor division (`Int.fdiv`); Python
`math.isqrt` is the exact floor integer square root, raising `ValueError`
on a negative operand.  This file proves the functional and algebraic
properties of the function.
-/

/-- Python `ValueError`, the only exception kind this module can raise.
The message distinguishes the explicit zero-reserve guard from the domain
error that `math.isqrt` raises on a negative operand. -/
inductive PyErr where
  | valueError (msg : String) : PyErr
  deriving DecidableEq

/-- The error raised by the `token0_amount == 0` guard of
`calculate_sqrt_price`; the spec calls this failure `InvalidInput`. -/
def invalidInput : PyErr := PyErr.valueError "Token0 reserve cannot be zero"

/-- The error Python's `math.isqrt` raises on a negative operand. -/
def isqrtDomainError : PyErr := PyErr.valueError "isqrt() argument must be nonnegative"

/-- Model of Python `math.isqrt`: the exact floor integer square root for a
nonnegative operand, a `ValueError` for a negative one. -/
def math.isqrt (n : Int) : Except PyErr Int :=
  if n < 0 then Except.error isqrtDomainError
  else Except.ok (Int.ofNat (Nat.sqrt n.toNat))

/-- `calculate_sqrt_price` from `sqrtprice.py`, translated statement by
statement.  The decimals are kept as `Nat`: `10 ** d` is integer arithmetic
in Python only for `d ≥ 0`, and every claim restricts the decimals to
non-negative values.  Python `//` on ints is floor division, `Int.fdiv`. -/
def calculate_sqrt_price (token0_reserve token1_reserve : Int)
    (token0_decimals token1_decimals : Nat) : Except PyErr Int :=
  let token0_amount := token0_reserve * 10 ^ token0_decimals
  let token1_amount := token1_reserve * 10 ^ token1_decimals
  if token0_amount = 0 then
    Except.error invalidInput
  else
    let numerator := token1_amount * 2 ^ 192
    let price_ratio_scaled := Int.fdiv numerator token0_amount
    math.isqrt price_ratio_scaled

/-- The spec's `priceRatioScaled` (§4.1 step 5), written from the spec's
words over non-negative integers: floor division of
`reserve1 * 10^decimals1 * 2^192` by `reserve0 * 10^decimals0`. -/
def priceRatioScaled (r0 r1 d0 d1 : Nat) : Nat :=
  r1 * 10 ^ d1 * 2 ^ 192 / (r0 * 10 ^ d0)

/-- The spec's full algorithm (§4.1 step 6): the exact integer square root
of `priceRatioScaled`. -/
def spec_sqrtPriceX96 (r0 r1 d0 d1 : Nat) : Nat :=
  Nat.sqrt (priceRatioScaled r0 r1 d0 d1)

/-- On non-negative inputs whose scaled token0 amount is nonzero, the code
agrees with the spec-side formula: the guard does not fire, the floor
division is `Nat` division, and the result is the floor square root. -/
theorem calculate_sqrt_price_natCast (r0 r1 d0 d1 : Nat) (h : r0 * 10 ^ d0 ≠ 0) :
    calculate_sqrt_price (r0 : Int) (r1 : Int) d0 d1 =
      Except.ok ((spec_sqrtPriceX96 r0 r1 d0 d1 : Nat) : Int) := by
  have e0 : ((r0 : Int)) * 10 ^ d0 = ((r0 * 10 ^ d0 : Nat) : Int) := by push_cast; ring
  have e1 : ((r1 : Int)) * 10 ^ d1 * 2 ^ 192 = ((r1 * 10 ^ d1 * 2 ^ 192 : Nat) : Int) := by
    push_cast; ring
  have hne : ((r0 * 10 ^ d0 : Nat) : Int) ≠ 0 := Int.natCast_ne_zero.mpr h
  simp only [calculate_sqrt_price, math.isqrt, e0, e1]
  rw [if_neg hne, ← Int.ofNat_fdiv]
  rw [if_neg (not_lt.mpr (Int.natCast_nonneg _))]
  simp only [Int.toNat_natCast]
  rfl

/-- Pins the value of the spec-side formula at a concrete input from the
two defining inequalities of the integer square root. -/
theorem spec_sqrtPriceX96_eq_of_bounds (r0 r1 d0 d1 v : Nat)
    (h1 : v * v ≤ priceRatioScaled r0 r1 d0 d1)
    (h2 : priceRatioScaled r0 r1 d0 d1 < (v + 1) * (v + 1)) :
    spec_sqrtPriceX96 r0 r1 d0 d1 = v :=
  (Nat.eq_sqrt.mpr ⟨h1, h2⟩).symm

/-- C1: for all non-negative integer inputs with
`reserve0 * 10^decimals0 ≠ 0`, `calculate_sqrt_price` returns exactly
`isqrt((reserve1 * 10^decimals1 * 2^192) // (reserve0 * 10^decimals0))`,
with `//` the floor integer division and `isqrt` the exact integer square
root, no floating point anywhere. -/
theorem C1_compute_matches_spec (r0 r1 d0 d1 : Nat) (h : r0 * 10 ^ d0 ≠ 0) :
    calculate_sqrt_price (r0 : Int) (r1 : Int) d0 d1 =
      Except.ok ((Nat.sqrt (r1 * 10 ^ d1 * 2 ^ 192 / (r0 * 10 ^ d0)) : Nat) : Int) :=
  calculate_sqrt_price_natCast r0 r1 d0 d1 h

/-- Witness for C1 at `reserve0 = reserve1 = 1`, `decimals = 18`. -/
theorem C1_compute_matches_spec_witness :
    calculate_sqrt_price ((1 : Nat) : Int) ((1 : Nat) : Int) 18 18 =
      Except.ok ((Nat.sqrt (1 * 10 ^ 18 * 2 ^ 192 / (1 * 10 ^ 18)) : Nat) : Int) :=
  C1_compute_matches_spec 1 1 18 18 (by norm_num)

/-- Evaluates `calculate_sqrt_price` at a concrete 18-decimal input from the
two defining inequalities of the integer square root. -/
theorem calculate_sqrt_price_value (r0 r1 v : Nat) (h : r0 ≠ 0)
    (h1 : v * v ≤ priceRatioScaled r0 r1 18 18)
    (h2 : priceRatioScaled r0 r1 18 18 < (v + 1) * (v + 1)) :
    calculate_sqrt_price (r0 : Int) (r1 : Int) 18 18 = Except.ok ((v : Nat) : Int) := by
  have hh := calculate_sqrt_price_natCast r0 r1 18 18 (Nat.mul_ne_zero h (by norm_num))
  rw [spec_sqrtPriceX96_eq_of_bounds r0 r1 18 18 v h1 h2] at hh
  exact hh

/-- C2: with both decimals 18, `calculate_sqrt_price` returns exactly the
12 literal expected values of the spec's end-to-end table. -/
theorem C2_end_to_end_table :
    calculate_sqrt_price 1 1 18 18 = Except.ok 79228162514264337593543950336 ∧
    calculate_sqrt_price 2 1 18 18 = Except.ok 56022770974786139918731938227 ∧
    calculate_sqrt_price 4 1 18 18 = Except.ok 39614081257132168796771975168 ∧
    calculate_sqrt_price 1 2 18 18 = Except.ok 112045541949572279837463876454 ∧
    calculate_sqrt_price 1 4 18 18 = Except.ok 158456325028528675187087900672 ∧
    calculate_sqrt_price 100 121 18 18 = Except.ok 87150978765690771352898345369 ∧
    calculate_sqrt_price 100 99 18 18 = Except.ok 78831026366734652303669917531 ∧
    calculate_sqrt_price 1000 99 18 18 = Except.ok 24928559360766947368818086097 ∧
    calculate_sqrt_price 100 101 18 18 = Except.ok 79623317895830914510639640423 ∧
    calculate_sqrt_price 100 1000 18 18 = Except.ok 250541448375047931186413801569 ∧
    calculate_sqrt_price 100 1010 18 18 = Except.ok 251791039410471229173201122529 ∧
    calculate_sqrt_price 100 10000 18 18 = Except.ok 792281625142643375935439503360 := by
  refine ⟨?_, ?_, ?_, ?_, ?_, ?_, ?_, ?_, ?_, ?_, ?_, ?_⟩
  · exact_mod_cast calculate_sqrt_price_value 1 1 79228162514264337593543950336
      (by decide) (by decide) (by decide)
  · exact_mod_cast calculate_sqrt_price_value 2 1 56022770974786139918731938227
      (by decide) (by decide) (by decide)
  · exact_mod_cast calculate_sqrt_price_value 4 1 39614081257132168796771975168
      (by decide) (by decide) (by decide)
  · exact_mod_cast calculate_sqrt_price_value 1 2 112045541949572279837463876454
      (by decide) (by decide) (by decide)
  · exact_mod_cast calculate_sqrt_price_value 1 4 158456325028528675187087900672
      (by decide) (by decide) (by decide)
  · exact_mod_cast calculate_sqrt_price_value 100 121 87150978765690771352898345369
      (by decide) (by decide) (by decide)
  · exact_mod_cast calculate_sqrt_price_value 100 99 78831026366734652303669917531
      (by decide) (by decide) (by decide)
  · exact_mod_cast calculate_sqrt_price_value 1000 99 24928559360766947368818086097
      (by decide) (by decide) (by decide)
  · exact_mod_cast calculate_sqrt_price_value 100 101 79623317895830914510639640423
      (by decide) (by decide) (by decide)
  · exact_mod_cast calculate_sqrt_price_value 100 1000 250541448375047931186413801569
      (by decide) (by decide) (by decide)
  · exact_mod_cast calculate_sqrt_price_value 100 1010 251791039410471229173201122529
      (by decide) (by decide) (by decide)
  · exact_mod_cast calculate_sqrt_price_value 100 10000 792281625142643375935439503360
      (by decide) (by decide) (by decide)

/-- C3: on non-negative inputs, `calculate_sqrt_price` fails with the
`InvalidInput` error exactly when the scaled amount
`reserve0 * 10^decimals0` is zero. -/
theorem C3_invalidInput_iff (r0 r1 d0 d1 : Nat) :
    calculate_sqrt_price (r0 : Int) (r1 : Int) d0 d1 = Except.error invalidInput ↔
      r0 * 10 ^ d0 = 0 := by
  constructor
  · intro hE
    by_contra hne
    rw [calculate_sqrt_price_natCast r0 r1 d0 d1 hne] at hE
    exact Except.noConfusion hE
  · intro h0
    have hr0 : r0 = 0 := by
      rcases Nat.mul_eq_zero.mp h0 with h | h
      · exact h
      · exact absurd h (by positivity)
    subst hr0
    simp [calculate_sqrt_price]

/-- Witness for C3: the spec's boundary case `compute(0, 1, 18, 18)`
raises `InvalidInput`. -/
theorem C3_invalidInput_iff_witness :
    calculate_sqrt_price ((0 : Nat) : Int) ((1 : Nat) : Int) 18 18 =
      Except.error invalidInput :=
  (C3_invalidInput_iff 0 1 18 18).mpr (by norm_num)

/-- C4: on valid non-negative inputs the returned value `r` satisfies
`r^2 <= priceRatioScaled < (r+1)^2`: it is the exact floor square root of
the scaled price ratio. -/
theorem C4_result_sq_bounds (r0 r1 d0 d1 : Nat) (h : r0 * 10 ^ d0 ≠ 0) (r : Int)
    (hr : calculate_sqrt_price (r0 : Int) (r1 : Int) d0 d1 = Except.ok r) :
    r ^ 2 ≤ (priceRatioScaled r0 r1 d0 d1 : Int) ∧
      (priceRatioScaled r0 r1 d0 d1 : Int) < (r + 1) ^ 2 := by
  rw [calculate_sqrt_price_natCast r0 r1 d0 d1 h] at hr
  injection hr with h'
  subst h'
  constructor
  · have hb := Nat.sqrt_le' (priceRatioScaled r0 r1 d0 d1)
    unfold spec_sqrtPriceX96
    exact_mod_cast hb
  · have hb := Nat.lt_succ_sqrt' (priceRatioScaled r0 r1 d0 d1)
    simp only [Nat.succ_eq_add_one] at hb
    unfold spec_sqrtPriceX96
    exact_mod_cast hb

/-- Witness for C4 at `reserve0 = reserve1 = 1`, `decimals = 18`. -/
theorem C4_result_sq_bounds_witness :
    (79228162514264337593543950336 : Int) ^ 2 ≤ (priceRatioScaled 1 1 18 18 : Int) ∧
      (priceRatioScaled 1 1 18 18 : Int) < ((79228162514264337593543950336 : Int) + 1) ^ 2 := by
  apply C4_result_sq_bounds 1 1 18 18 (by norm_num) 79228162514264337593543950336
  exact_mod_cast calculate_sqrt_price_value 1 1 79228162514264337593543950336
    (by decide) (by decide) (by decide)

/-- C5: adding the same amount to both decimals leaves the result
unchanged — both scaled amounts grow by the same factor of 10, which
cancels exactly in the floor division. -/
theorem C5_equal_decimal_shift (r0 r1 d0 d1 : Nat) (h : 0 < r0) :
    calculate_sqrt_price (r0 : Int) (r1 : Int) d0 d1 =
      calculate_sqrt_price (r0 : Int) (r1 : Int) (d0 + 1) (d1 + 1) := by
  have h0 : r0 * 10 ^ d0 ≠ 0 := Nat.mul_ne_zero (Nat.pos_iff_ne_zero.mp h) (by positivity)
  have h1 : r0 * 10 ^ (d0 + 1) ≠ 0 := Nat.mul_ne_zero (Nat.pos_iff_ne_zero.mp h) (by positivity)
  rw [calculate_sqrt_price_natCast r0 r1 d0 d1 h0,
    calculate_sqrt_price_natCast r0 r1 (d0 + 1) (d1 + 1) h1]
  have key : priceRatioScaled r0 r1 (d0 + 1) (d1 + 1) = priceRatioScaled r0 r1 d0 d1 := by
    unfold priceRatioScaled
    have e1 : r1 * 10 ^ (d1 + 1) * 2 ^ 192 = r1 * 10 ^ d1 * 2 ^ 192 * 10 := by ring
    have e2 : r0 * 10 ^ (d0 + 1) = r0 * 10 ^ d0 * 10 := by ring
    rw [e1, e2, Nat.mul_div_mul_right _ _ (by norm_num : (0 : Nat) < 10)]
  unfold spec_sqrtPriceX96
  rw [key]

/-- Witness for C5 at `reserve0 = reserve1 = 1`, decimals `0` and `1`. -/
theorem C5_equal_decimal_shift_witness :
    calculate_sqrt_price ((1 : Nat) : Int) ((1 : Nat) : Int) 0 0 =
      calculate_sqrt_price ((1 : Nat) : Int) ((1 : Nat) : Int) 1 1 :=
  C5_equal_decimal_shift 1 1 0 0 (by norm_num)

/-- C7: under the precondition `reserve0 * 10^decimals0 ≠ 0`, the
computation always terminates normally with a value: neither the
`InvalidInput` branch nor the `isqrt` domain error can fire. -/
theorem C7_total_on_valid (r0 r1 d0 d1 : Nat) (h : r0 * 10 ^ d0 ≠ 0) :
    ∃ v : Int, calculate_sqrt_price (r0 : Int) (r1 : Int) d0 d1 = Except.ok v :=
  ⟨_, calculate_sqrt_price_natCast r0 r1 d0 d1 h⟩

/-- Witness for C7 at `reserve0 = 3`, `reserve1 = 7`, `decimals = 18`. -/
theorem C7_total_on_valid_witness :
    ∃ v : Int, calculate_sqrt_price ((3 : Nat) : Int) ((7 : Nat) : Int) 18 18 =
      Except.ok v :=
  C7_total_on_valid 3 7 18 18 (by norm_num)

/-- C9: multiplying both reserves by the same positive factor leaves the
result unchanged — the common factor cancels exactly in the floor
division. -/
theorem C9_common_factor_invariance (k r0 r1 d0 d1 : Nat) (hk : 0 < k) (h0 : 0 < r0) :
    calculate_sqrt_price ((k * r0 : Nat) : Int) ((k * r1 : Nat) : Int) d0 d1 =
      calculate_sqrt_price (r0 : Int) (r1 : Int) d0 d1 := by
  have ha : r0 * 10 ^ d0 ≠ 0 := Nat.mul_ne_zero (Nat.pos_iff_ne_zero.mp h0) (by positivity)
  have hb : k * r0 * 10 ^ d0 ≠ 0 :=
    Nat.mul_ne_zero (Nat.mul_ne_zero (Nat.pos_iff_ne_zero.mp hk) (Nat.pos_iff_ne_zero.mp h0)) (by positivity)
  rw [calculate_sqrt_price_natCast (k * r0) (k * r1) d0 d1 hb,
    calculate_sqrt_price_natCast r0 r1 d0 d1 ha]
  have key : priceRatioScaled (k * r0) (k * r1) d0 d1 = priceRatioScaled r0 r1 d0 d1 := by
    unfold priceRatioScaled
    have e1 : k * r1 * 10 ^ d1 * 2 ^ 192 = k * (r1 * 10 ^ d1 * 2 ^ 192) := by ring
    have e2 : k * r0 * 10 ^ d0 = k * (r0 * 10 ^ d0) := by ring
    rw [e1, e2, Nat.mul_div_mul_left _ _ hk]
  unfold spec_sqrtPriceX96
  rw [key]

/-- Witness for C9 at `k = 2`, `reserve0 = 1`, `reserve1 = 3`. -/
theorem C9_common_factor_invariance_witness :
    calculate_sqrt_price ((2 * 1 : Nat) : Int) ((2 * 3 : Nat) : Int) 18 18 =
      calculate_sqrt_price ((1 : Nat) : Int) ((3 : Nat) : Int) 18 18 :=
  C9_common_factor_invariance 2 1 3 18 18 (by norm_num) (by norm_num)

/-- C10: a zero `reserve1` is accepted and yields `sqrtPriceX96 = 0`, and
the result is `0` exactly when the scaled numerator
`reserve1 * 10^decimals1 * 2^192` is smaller than the scaled denominator
`reserve0 * 10^decimals0`. -/
theorem C10_zero_reserve1 (r0 r1 d0 d1 : Nat) (h : 0 < r0) :
    calculate_sqrt_price (r0 : Int) ((0 : Nat) : Int) d0 d1 = Except.ok 0 ∧
      (calculate_sqrt_price (r0 : Int) (r1 : Int) d0 d1 = Except.ok 0 ↔
        r1 * 10 ^ d1 * 2 ^ 192 < r0 * 10 ^ d0) := by
  have hne : r0 * 10 ^ d0 ≠ 0 := Nat.mul_ne_zero (Nat.pos_iff_ne_zero.mp h) (by positivity)
  have hpos : 0 < r0 * 10 ^ d0 := Nat.pos_of_ne_zero hne
  constructor
  · rw [calculate_sqrt_price_natCast r0 0 d0 d1 hne]
    norm_num [spec_sqrtPriceX96, priceRatioScaled]
  · rw [calculate_sqrt_price_natCast r0 r1 d0 d1 hne]
    constructor
    · intro hok
      have hs : spec_sqrtPriceX96 r0 r1 d0 d1 = 0 := by simpa using hok
      have hq : priceRatioScaled r0 r1 d0 d1 = 0 := Nat.sqrt_eq_zero.mp hs
      exact (Nat.div_eq_zero_iff hpos).mp hq
    · intro hlt
      have hq : priceRatioScaled r0 r1 d0 d1 = 0 := by
        unfold priceRatioScaled
        exact Nat.div_eq_of_lt hlt
      have hs : spec_sqrtPriceX96 r0 r1 d0 d1 = 0 := by
        unfold spec_sqrtPriceX96
        rw [hq, Nat.sqrt_zero]
      rw [hs]
      norm_num

/-- Witness for C10 at `reserve0 = 1`, `reserve1 = 5`, `decimals = 18`. -/
theorem C10_zero_reserve1_witness :
    calculate_sqrt_price ((1 : Nat) : Int) ((0 : Nat) : Int) 18 18 = Except.ok 0 ∧
      (calculate_sqrt_price ((1 : Nat) : Int) ((5 : Nat) : Int) 18 18 = Except.ok 0 ↔
        5 * 10 ^ 18 * 2 ^ 192 < 1 * 10 ^ 18) :=
  C10_zero_reserve1 1 5 18 18 (by norm_num)

/-- With equal decimals the common factor `10^d` cancels exactly in the
floor division. -/
theorem priceRatioScaled_same_decimals (r0 r1 d : Nat) :
    priceRatioScaled r0 r1 d d = r1 * 2 ^ 192 / r0 := by
  unfold priceRatioScaled
  have e1 : r1 * 10 ^ d * 2 ^ 192 = r1 * 2 ^ 192 * 10 ^ d := by ring
  rw [e1, Nat.mul_div_mul_right _ _ (by positivity : (0 : Nat) < 10 ^ d)]

/-- Core arithmetic of the reciprocal-product bound: if `q1` and `q2` are
the floor ratios `b*M/a` and `a*M/b` (characterised by the four division
inequalities) and `x`, `y` their floor square roots (characterised by the
four square-root inequalities), then `x*y ≤ M < (x+1)*(y+1)`. -/
theorem recip_core (a b M q1 q2 x y : Nat) (hA : 0 < a) (hB : 0 < b)
    (ha1 : a * q1 ≤ b * M) (hb1 : b * q2 ≤ a * M)
    (ha2 : b * M < a * (q1 + 1)) (hb2 : a * M < b * (q2 + 1))
    (hx1 : x * x ≤ q1) (hx2 : q1 < (x + 1) * (x + 1))
    (hy1 : y * y ≤ q2) (hy2 : q2 < (y + 1) * (y + 1)) :
    x * y ≤ M ∧ M < (x + 1) * (y + 1) := by
  constructor
  · have s1 : x * y * (x * y) ≤ q1 * q2 := by
      calc x * y * (x * y) = x * x * (y * y) := by ring
        _ ≤ q1 * q2 := Nat.mul_le_mul hx1 hy1
    have s2 : a * b * (q1 * q2) ≤ a * b * (M * M) := by
      calc a * b * (q1 * q2) = a * q1 * (b * q2) := by ring
        _ ≤ b * M * (a * M) := Nat.mul_le_mul ha1 hb1
        _ = a * b * (M * M) := by ring
    have s3 : q1 * q2 ≤ M * M := Nat.le_of_mul_le_mul_left s2 (Nat.mul_pos hA hB)
    by_contra hc
    push_neg at hc
    exact absurd (Nat.mul_self_lt_mul_self hc) (not_lt.mpr (le_trans s1 s3))
  · have f1 : b * M < a * ((x + 1) * (x + 1)) :=
      lt_of_lt_of_le ha2 (Nat.mul_le_mul_left a (Nat.succ_le_of_lt hx2))
    have f2 : a * M < b * ((y + 1) * (y + 1)) :=
      lt_of_lt_of_le hb2 (Nat.mul_le_mul_left b (Nat.succ_le_of_lt hy2))
    have g : a * b * (M * M) < a * b * ((x + 1) * (y + 1) * ((x + 1) * (y + 1))) := by
      calc a * b * (M * M) = b * M * (a * M) := by ring
        _ < a * ((x + 1) * (x + 1)) * (b * ((y + 1) * (y + 1))) :=
            mul_lt_mul'' f1 f2 (Nat.zero_le _) (Nat.zero_le _)
        _ = a * b * ((x + 1) * (y + 1) * ((x + 1) * (y + 1))) := by ring
    have g2 : M * M < (x + 1) * (y + 1) * ((x + 1) * (y + 1)) := Nat.lt_of_mul_lt_mul_left g
    by_contra hc
    push_neg at hc
    exact absurd g2 (not_lt.mpr (Nat.mul_self_le_mul_self hc))

/-- C6: for positive reserves and equal decimals, the product of the two
opposite-direction results brackets `2^192`: each factor is independently
floored, so `x * y ≤ 2^192 < (x+1) * (y+1)` — off by at most one unit in
the last place on each factor. -/
theorem C6_reciprocal_product (a b d : Nat) (ha : 0 < a) (hb : 0 < b) (x y : Int)
    (hx : calculate_sqrt_price (a : Int) (b : Int) d d = Except.ok x)
    (hy : calculate_sqrt_price (b : Int) (a : Int) d d = Except.ok y) :
    x * y ≤ 2 ^ 192 ∧ (2 ^ 192 : Int) < (x + 1) * (y + 1) := by
  have hA : a * 10 ^ d ≠ 0 :=
    Nat.mul_ne_zero (Nat.pos_iff_ne_zero.mp ha) (by positivity)
  have hB : b * 10 ^ d ≠ 0 :=
    Nat.mul_ne_zero (Nat.pos_iff_ne_zero.mp hb) (by positivity)
  rw [calculate_sqrt_price_natCast a b d d hA] at hx
  rw [calculate_sqrt_price_natCast b a d d hB] at hy
  injection hx with hx'
  injection hy with hy'
  subst hx'
  subst hy'
  have ha1 : a * (b * 2 ^ 192 / a) ≤ b * 2 ^ 192 := by
    rw [Nat.mul_comm]
    exact Nat.div_mul_le_self _ _
  have hb1 : b * (a * 2 ^ 192 / b) ≤ a * 2 ^ 192 := by
    rw [Nat.mul_comm]
    exact Nat.div_mul_le_self _ _
  have ha2 : b * 2 ^ 192 < a * (b * 2 ^ 192 / a + 1) := by
    have hmod := Nat.mod_lt (b * 2 ^ 192) ha
    calc b * 2 ^ 192 = a * (b * 2 ^ 192 / a) + b * 2 ^ 192 % a :=
          (Nat.div_add_mod _ _).symm
      _ < a * (b * 2 ^ 192 / a) + a := Nat.add_lt_add_left hmod _
      _ = a * (b * 2 ^ 192 / a + 1) := by ring
  have hb2 : a * 2 ^ 192 < b * (a * 2 ^ 192 / b + 1) := by
    have hmod := Nat.mod_lt (a * 2 ^ 192) hb
    calc a * 2 ^ 192 = b * (a * 2 ^ 192 / b) + a * 2 ^ 192 % b :=
          (Nat.div_add_mod _ _).symm
      _ < b * (a * 2 ^ 192 / b) + b := Nat.add_lt_add_left hmod _
      _ = b * (a * 2 ^ 192 / b + 1) := by ring
  have key := recip_core a b (2 ^ 192) (b * 2 ^ 192 / a) (a * 2 ^ 192 / b)
    (Nat.sqrt (b * 2 ^ 192 / a)) (Nat.sqrt (a * 2 ^ 192 / b)) ha hb ha1 hb1 ha2 hb2
    (Nat.sqrt_le _)
    (by simpa [Nat.succ_eq_add_one] using Nat.lt_succ_sqrt (b * 2 ^ 192 / a))
    (Nat.sqrt_le _)
    (by simpa [Nat.succ_eq_add_one] using Nat.lt_succ_sqrt (a * 2 ^ 192 / b))
  have hq1 := priceRatioScaled_same_decimals a b d
  have hq2 := priceRatioScaled_same_decimals b a d
  constructor
  · have hk := key.1
    unfold spec_sqrtPriceX96
    rw [hq1, hq2]
    exact_mod_cast hk
  · have hk := key.2
    unfold spec_sqrtPriceX96
    rw [hq1, hq2]
    exact_mod_cast hk

/-- Witness for C6 at `a = b = 1`, `d = 0`: both factors are `2^96`. -/
theorem C6_reciprocal_product_witness :
    (79228162514264337593543950336 : Int) * 79228162514264337593543950336 ≤ 2 ^ 192 ∧
      (2 ^ 192 : Int) <
        (79228162514264337593543950336 + 1) * (79228162514264337593543950336 + 1) := by
  apply C6_reciprocal_product 1 1 0 (by norm_num) (by norm_num)
  · have hh := calculate_sqrt_price_natCast 1 1 0 0 (by norm_num)
    rw [spec_sqrtPriceX96_eq_of_bounds 1 1 0 0 79228162514264337593543950336
      (by decide) (by decide)] at hh
    exact_mod_cast hh
  · have hh := calculate_sqrt_price_natCast 1 1 0 0 (by norm_num)
    rw [spec_sqrtPriceX96_eq_of_bounds 1 1 0 0 79228162514264337593543950336
      (by decide) (by decide)] at hh
    exact_mod_cast hh

/-- Floor division is unchanged when both operands are negated (shown here
for the two negative operands the embedding needs). -/
theorem fdiv_neg_both {a b : Int} (ha : a < 0) (hb : b < 0) :
    Int.fdiv (-a) (-b) = Int.fdiv a b := by
  obtain ⟨m, rfl⟩ := Int.eq_negSucc_of_lt_zero ha
  obtain ⟨n, rfl⟩ := Int.eq_negSucc_of_lt_zero hb
  rfl

/-- Floor division of a positive dividend by a negative divisor is
negative. -/
theorem fdiv_neg_of_pos_of_neg {a b : Int} (ha : 0 < a) (hb : b < 0) :
    Int.fdiv a b < 0 := by
  obtain ⟨m, rfl⟩ := Int.eq_succ_of_zero_lt ha
  obtain ⟨n, rfl⟩ := Int.eq_negSucc_of_lt_zero hb
  exact Int.negSucc_lt_zero _

/-- With both reserves negative the signs cancel in the floor division, so
the code behaves exactly as on the negated (positive) reserves. -/
theorem calculate_sqrt_price_neg_neg (r0 r1 : Int) (d0 d1 : Nat)
    (h0 : r0 < 0) (h1 : r1 < 0) :
    calculate_sqrt_price r0 r1 d0 d1 = calculate_sqrt_price (-r0) (-r1) d0 d1 := by
  have ht0 : r0 * 10 ^ d0 < 0 := mul_neg_of_neg_of_pos h0 (by positivity)
  have hnum : r1 * 10 ^ d1 * 2 ^ 192 < 0 :=
    mul_neg_of_neg_of_pos (mul_neg_of_neg_of_pos h1 (by positivity)) (by positivity)
  have e0 : -r0 * 10 ^ d0 = -(r0 * 10 ^ d0) := by ring
  have e1 : -r1 * 10 ^ d1 * 2 ^ 192 = -(r1 * 10 ^ d1 * 2 ^ 192) := by ring
  simp only [calculate_sqrt_price, e0, e1]
  rw [if_neg (ne_of_lt ht0), if_neg (neg_ne_zero.mpr (ne_of_lt ht0))]
  congr 1
  exact (fdiv_neg_both hnum ht0).symm

/-- C8 (amended): when exactly one reserve is negative and the other
positive, the computation fails — but with the `ValueError` coming from
`math.isqrt` on a negative operand, not with the `InvalidInput` guard; and
when both reserves are negative the code silently returns the same value
as on the corresponding positive reserves. -/
theorem C8_negative_input_behavior (r0 r1 : Int) (d0 d1 : Nat) :
    ((r0 < 0 ∧ 0 < r1 ∨ 0 < r0 ∧ r1 < 0) →
      calculate_sqrt_price r0 r1 d0 d1 = Except.error isqrtDomainError) ∧
      (r0 < 0 → r1 < 0 →
        calculate_sqrt_price r0 r1 d0 d1 = calculate_sqrt_price (-r0) (-r1) d0 d1) := by
  constructor
  · rintro (⟨h0, h1⟩ | ⟨h0, h1⟩)
    · have ht0 : r0 * 10 ^ d0 < 0 := mul_neg_of_neg_of_pos h0 (by positivity)
      have hnum : (0 : Int) < r1 * 10 ^ d1 * 2 ^ 192 :=
        mul_pos (mul_pos h1 (by positivity)) (by positivity)
      simp only [calculate_sqrt_price, math.isqrt]
      rw [if_neg (ne_of_lt ht0), if_pos (fdiv_neg_of_pos_of_neg hnum ht0)]
    · have ht0 : (0 : Int) < r0 * 10 ^ d0 := mul_pos h0 (by positivity)
      have hnum : r1 * 10 ^ d1 * 2 ^ 192 < 0 :=
        mul_neg_of_neg_of_pos (mul_neg_of_neg_of_pos h1 (by positivity)) (by positivity)
      simp only [calculate_sqrt_price, math.isqrt]
      rw [if_neg (ne_of_gt ht0), if_pos (Int.fdiv_neg' hnum ht0)]
  · exact fun h0 h1 => calculate_sqrt_price_neg_neg r0 r1 d0 d1 h0 h1

/-- Witness for the amended C8 at `reserve0 = -1`, `reserve1 = 1`. -/
theorem C8_negative_input_behavior_witness :
    calculate_sqrt_price (-1) 1 18 18 = Except.error isqrtDomainError :=
  (C8_negative_input_behavior (-1) 1 18 18).1 (Or.inl ⟨by norm_num, by norm_num⟩)

/-- Counterexample to C8 as stated: with both reserves negative the code
does not fail at all — `compute(-1, -1, 18, 18)` silently returns the
`compute(1, 1, 18, 18)` value. -/
theorem C8_counterexample_both_negative :
    calculate_sqrt_price (-1) (-1) 18 18 = Except.ok 79228162514264337593543950336 := by
  have e := calculate_sqrt_price_neg_neg (-1) (-1) 18 18 (by norm_num) (by norm_num)
  norm_num at e
  rw [e]
  exact_mod_cast calculate_sqrt_price_value 1 1 79228162514264337593543950336
    (by decide) (by decide) (by decide)
